import Mathlib

/-!
Verification development for the rawbify backend data-processing pipeline.

The development shallowly embeds `app/services/processing_service.py` and the
upload endpoint of `app/api/processing.py`.  Text (Python `str` and `bytes`)
is modelled as `List Char`; a pandas `DataFrame` is a header list plus a list
of rows whose cells are modelled by their textual rendering.  Python functions
that mutate an argument in place are embedded in state-passing style: they
return the post-call value of the mutated argument alongside their result.
External effects that the service merely invokes (the OpenAI chat call, the
CPython `exec` of generated code, `pd.read_csv` / `pd.read_excel` applied to
the uploaded bytes) are parameters of an environment record: the service code
surrounding them is embedded faithfully, while their outcomes are supplied by
the environment.
-/

/-- Python text (`str`/`bytes`) is modelled as a list of characters. -/
abbrev Chars := List Char

/-- The double-quote character, written via its code point. -/
def quoteC : Char := Char.ofNat 34

/-- The comma character. -/
def commaC : Char := Char.ofNat 44

/-- The line-feed character. -/
def nlC : Char := Char.ofNat 10

/-- The carriage-return character. -/
def crC : Char := Char.ofNat 13

/-- The full-stop character. -/
def dotC : Char := Char.ofNat 46

/-- The single-quote character. -/
def squoteC : Char := Char.ofNat 39

/-- The backtick character. -/
def btickC : Char := Char.ofNat 96

/-- Prepend a character onto the first group of a nonempty grouping. -/
def consHead (c : Char) : List Chars → List Chars
  | [] => [[c]]
  | f :: fs => (c :: f) :: fs

/-- Prepend a chunk onto the first group of a grouping. -/
def consAll (a : Chars) : List Chars → List Chars
  | [] => [a]
  | f :: fs => (a ++ f) :: fs

/-- Python `s.split(d)`. -/
def splitOnChar (d : Char) : Chars → List Chars
  | [] => [[]]
  | c :: cs => if c = d then [] :: splitOnChar d cs else consHead c (splitOnChar d cs)

/-- Python `s.strip()`: drop whitespace from both ends. -/
def trimChars (cs : Chars) : Chars :=
  ((cs.dropWhile Char.isWhitespace).reverse.dropWhile Char.isWhitespace).reverse

/-- Fuel-indexed worker for `removeAll`; the fuel dominates the list length. -/
def removeAllGo (pat : Chars) : Nat → Chars → Chars
  | 0, cs => cs
  | fuel + 1, cs =>
    match cs with
    | [] => []
    | c :: cs' =>
      if pat.isPrefixOf (c :: cs') then removeAllGo pat fuel (cs'.drop (pat.length - 1))
      else c :: removeAllGo pat fuel cs'

/-- Python `s.replace(pat, "")`: delete every (leftmost, non-overlapping)
occurrence of `pat`. -/
def removeAll (pat cs : Chars) : Chars := removeAllGo pat cs.length cs

/-- Whether `pat` occurs as a contiguous substring of `cs`. -/
def containsL (pat : Chars) : Chars → Bool
  | [] => pat.isEmpty
  | c :: cs => pat.isPrefixOf (c :: cs) || containsL pat cs

/-- Join groups with a single-character separator. -/
def intercalateChar (d : Char) : List Chars → Chars
  | [] => []
  | [f] => f
  | f :: g :: fs => f ++ d :: intercalateChar d (g :: fs)

/-- Decimal rendering of a natural number, as characters. -/
def natToStr (n : Nat) : Chars := (Nat.repr n).data

/-- A pandas `DataFrame`: named columns and rows of (rendered) cells. -/
structure DataFrame where
  columns : List Chars
  rows : List (List Chars)
deriving DecidableEq

/-- Pandas scalar column assignment `df[name] = v`: overwrite the column if
the name is already present, otherwise append a new column, broadcasting the
scalar to every row. -/
def setCol (df : DataFrame) (name v : Chars) : DataFrame :=
  if name ∈ df.columns then
    { columns := df.columns,
      rows := df.rows.map fun r => r.set (df.columns.findIdx (fun c => c == name)) v }
  else
    { columns := df.columns ++ [name], rows := df.rows.map fun r => r ++ [v] }

/-- Whether a CSV field needs quoting (pandas `to_csv` minimal quoting:
delimiter, quote character, or line-break characters present). -/
def needsQuote (f : Chars) : Bool :=
  f.any fun c => c == quoteC || c == commaC || c == nlC || c == crC

/-- Double every quote character inside a quoted CSV field. -/
def escapeQ : Chars → Chars
  | [] => []
  | c :: cs => if c = quoteC then quoteC :: quoteC :: escapeQ cs else c :: escapeQ cs

/-- Render one CSV field, quoting it when needed. -/
def encodeField (f : Chars) : Chars :=
  if needsQuote f then quoteC :: (escapeQ f ++ [quoteC]) else f

/-- Render one CSV record: comma-joined encoded fields. -/
def encodeRecord (r : List Chars) : Chars := intercalateChar commaC (r.map encodeField)

/-- Render a list of CSV records, each terminated by a line feed. -/
def serializeRecords (records : List (List Chars)) : Chars :=
  (records.map fun r => encodeRecord r ++ [nlC]).flatten

/-- Pandas `df.to_csv(index=False)`: header record followed by data records. -/
def to_csv (df : DataFrame) : Chars := serializeRecords (df.columns :: df.rows)

/-- Split on a delimiter, ignoring delimiters inside double-quoted regions
(quote characters toggle the state and are kept in the output). -/
def splitQ (d : Char) : Chars → Bool → List Chars
  | [], _ => [[]]
  | c :: cs, inQ =>
    if c = quoteC then consHead c (splitQ d cs (!inQ))
    else if c = d ∧ inQ = false then [] :: splitQ d cs inQ
    else consHead c (splitQ d cs inQ)

/-- Undo quote doubling inside a quoted field; a single quote closes it. -/
def unescapeQ : Chars → Chars
  | [] => []
  | [c] => if c = quoteC then [] else [c]
  | c :: e :: cs =>
    if c = quoteC then (if e = quoteC then quoteC :: unescapeQ cs else [])
    else c :: unescapeQ (e :: cs)

/-- Decode one CSV field: strip the quoting applied by `encodeField`. -/
def decodeField (f : Chars) : Chars :=
  match f with
  | [] => []
  | c :: cs => if c = quoteC then unescapeQ cs else c :: cs

/-- Split a CSV text into records, dropping the empty record produced by the
trailing line terminator. -/
def csvRecords (cs : Chars) : List Chars :=
  let recs := splitQ nlC cs false
  if recs.getLast? = some [] then recs.dropLast else recs

/-- CSV re-parse of the wire format written by `to_csv` (the first record is
the header). -/
def read_csv (cs : Chars) : DataFrame :=
  let records := (csvRecords cs).map fun r => (splitQ commaC r false).map decodeField
  match records with
  | [] => { columns := [], rows := [] }
  | h :: t => { columns := h, rows := t }

/-- Quote-parity state after scanning a chunk. -/
def qstate : Chars → Bool → Bool
  | [], b => b
  | c :: cs, b => qstate cs (if c = quoteC then !b else b)

/-- Whether a chunk contains the delimiter in an unquoted position. -/
def hasTopDelim (d : Char) : Chars → Bool → Bool
  | [], _ => false
  | c :: cs, b =>
    if c = quoteC then hasTopDelim d cs (!b)
    else if c = d ∧ b = false then true
    else hasTopDelim d cs b

/-- The language-tagged fence marker. -/
def fencePy : Chars := "```python".data

/-- The bare fence marker. -/
def fence : Chars := "```".data

/-- Markdown cleanup of the generated text in `_get_ai_response`
(`processing_service.py` lines 253-262): strip, then — when the text starts
with a fence marker — delete every occurrence of the marker texts via
`str.replace`, and strip again. -/
def cleanCode (raw : Chars) : Chars :=
  let code := trimChars raw
  if fencePy.isPrefixOf code then trimChars (removeAll fence (removeAll fencePy code))
  else if fence.isPrefixOf code then trimChars (removeAll fence code)
  else code

/-- Modelled from the spec: the sanitizer rule of section 4.4 as written —
remove only the opening fence marker and the closing fence marker, then trim.
This definition follows the specification words, not the source, and exists
solely to be compared against `cleanCode`. -/
def sanitizeFencePerSpec (raw : Chars) : Chars :=
  let code := trimChars raw
  if fencePy.isPrefixOf code then
    let body := code.drop fencePy.length
    let body := if fence.isSuffixOf body then body.take (body.length - fence.length) else body
    trimChars body
  else if fence.isPrefixOf code then
    let body := code.drop fence.length
    let body := if fence.isSuffixOf body then body.take (body.length - fence.length) else body
    trimChars body
  else code

/-- The result dictionary of `_get_ai_response`. -/
structure AIResponse where
  code : Chars
  explanation : Chars
deriving DecidableEq

/-- The hard-coded fallback statement returned when the OpenAI call fails:
the Python text df[<q>ai_error<q>] = <q>AI failed<q> with single quotes. -/
def aiErrorFallbackCode : Chars :=
  "df[".data ++ [squoteC] ++ "ai_error".data ++ [squoteC] ++ "] = ".data
    ++ [squoteC] ++ "AI failed".data ++ [squoteC]

/-- Embedding of `_get_ai_response`: the OpenAI round trip itself is an
environment outcome (`ok` raw content, or `error` text for a raised
exception); the surrounding stripping/cleanup and the exception fallback are
embedded from the source. -/
def getAiResponse (genResult : Except Chars Chars) : AIResponse :=
  match genResult with
  | .ok content => { code := cleanCode content, explanation := "AI generated pandas code".data }
  | .error e =>
      { code := aiErrorFallbackCode, explanation := "AI processing error: ".data ++ e }

/-- The keys of the `__builtins__` mapping installed for the sandboxed
`exec` (`processing_service.py` lines 304-365), in source order. -/
def allowedBuiltins : List Chars :=
  ["len".data, "str".data, "int".data, "float".data, "round".data, "max".data,
   "min".data, "sum".data, "abs".data, "pow".data, "divmod".data, "complex".data,
   "bin".data, "hex".data, "oct".data, "chr".data, "ord".data, "range".data,
   "enumerate".data, "zip".data, "filter".data, "map".data, "reversed".data,
   "sorted".data, "any".data, "all".data, "isinstance".data, "issubclass".data,
   "hasattr".data, "getattr".data, "setattr".data, "delattr".data,
   "property".data, "super".data, "object".data, "type".data, "bool".data,
   "list".data, "tuple".data, "dict".data, "set".data, "frozenset".data,
   "slice".data, "memoryview".data, "bytearray".data, "bytes".data,
   "open".data, "print".data, "input".data, "format".data, "vars".data,
   "dir".data, "help".data, "hash".data, "id".data, "callable".data,
   "compile".data, "eval".data, "exec".data, "__import__".data]

/-- The names bound in `exec_globals` (`processing_service.py` lines 298-366). -/
def execGlobalNames : List Chars :=
  ["df".data, "pd".data, "np".data, "math".data, "statistics".data,
   "__builtins__".data]

/-- Outcome of the CPython `exec` of generated code on the working copy:
either it returns and `exec_globals` holds a dataframe, or it raises with a
message, leaving the working copy in some (possibly partially mutated)
state. -/
inductive ExecOutcome where
  | ok (df : DataFrame)
  | raised (msg : Chars) (df : DataFrame)

/-- Environment of externally-determined outcomes for one invocation:
the configured OpenAI key, the outcome of the chat-completion call, the
semantics of `exec` on a given code text and working copy, an optional
exception raised in the AI stage outside the inner handlers (for example by
`openai.OpenAI(...)` construction), and the outcomes of the pandas byte
parsers. -/
structure AIEnv where
  apiKey : Chars
  genResult : Except Chars Chars
  execPython : Chars → DataFrame → ExecOutcome
  aiStageFault : Option Chars
  readCsvFile : Chars → Except Chars DataFrame
  readExcelFile : Chars → Except Chars DataFrame

/-- Embedding of `_apply_ai_logic` (lines 280-391): work on a copy of the
dataframe, add a placeholder column when no code was generated, run the code
otherwise, and convert a raised fault into an `execution_error` column on the
working copy. The caller's dataframe is never touched (the embedding returns
only the working result). -/
def applyAiLogic (df : DataFrame) (resp : AIResponse) (env : AIEnv) : DataFrame :=
  let result := df
  if trimChars resp.code = [] then
    setCol result "ai_processed".data "No code generated".data
  else
    match env.execPython resp.code result with
    | .ok d => d
    | .raised e d => setCol d "execution_error".data ("Code error: ".data ++ e)

/-- The summary text of the no-key fallback: No AI key configured - added
the quoted done column. -/
def noKeySummary : Chars :=
  "No AI key configured - added ".data ++ [squoteC] ++ "done".data ++ [squoteC]
    ++ " column".data

/-- Embedding of `_process_with_ai` (lines 150-200), in state-passing style:
the first component is the caller's dataframe object after the call (the
no-key fallback and the outer exception handler both assign a `done` column
to it in place), the second is the returned processed dataframe, the third
the returned summary text.  The user prompt only feeds the prompt that the
generation oracle answers, so it is absorbed into `env.genResult`. -/
def processWithAI (df : DataFrame) (env : AIEnv) : DataFrame × DataFrame × Chars :=
  if env.apiKey = [] then
    let d := setCol df "done".data "done".data
    (d, d, noKeySummary)
  else
    match env.aiStageFault with
    | some e =>
        let d := setCol df "done".data ("AI Error: ".data ++ e)
        (d, d, "AI processing failed: ".data ++ e)
    | none =>
        let resp := getAiResponse env.genResult
        (df, applyAiLogic df resp env, resp.explanation)

/-- A `ProcessingJob` row, with `json.dumps` of the summary modelled as the
list itself and timestamps modelled as a set/unset flag (the source sets
`completed_at` only on the completed path). -/
structure Job where
  user_id : Chars
  file_name : Chars
  file_size : Nat
  prompt : Chars
  status : Chars
  processing_summary : Option (List Chars)
  error_message : Option Chars
  completed_at_set : Bool
deriving DecidableEq

/-- The database visible to the service: user ledger entries
`(user_id, is_active)` and the processing-job table. -/
structure DBState where
  users : List (Chars × Bool)
  jobs : List Job
deriving DecidableEq

/-- The dictionary returned by `ProcessingService.process_data`. -/
structure PDResult where
  success : Bool
  data : Option Chars
  processingSummary : Option (List Chars)
  error : Option Chars
deriving DecidableEq

/-- The reserved administrator identifier (`ADMIN_USER_ID`). -/
def ADMIN_USER_ID : Chars := "user_admin".data

/-- User validation of `process_data` lines 30-40: the admin identifier
passes unconditionally, anyone else needs an active ledger entry. -/
def validUser (db : DBState) (userId : Chars) : Bool :=
  (userId == ADMIN_USER_ID) || db.users.any fun u => u.1 == userId && u.2

/-- Commit an update to the most recently added job row. -/
def updateLast (f : Job → Job) : List Job → List Job
  | [] => []
  | [j] => [f j]
  | j :: k :: js => j :: updateLast f (k :: js)

/-- Job update of the ingestion-failure handler (lines 128-131): status
`failed`, raised message recorded verbatim, timestamp untouched. -/
def markFailed (e : Chars) (j : Job) : Job :=
  { j with status := "failed".data, error_message := some e }

/-- Job update of the success path (lines 110-115): status `completed`,
completion timestamp set, summary stored. -/
def markCompleted (summary : List Chars) (j : Job) : Job :=
  { j with
    status := "completed".data, completed_at_set := true,
    processing_summary := some summary }

/-- Extension dispatch of `process_data` lines 66-76: lower-case the file
name, parse by suffix, raise `Unsupported file format` otherwise.  The pandas
byte parsers are environment outcomes. -/
def readFile (env : AIEnv) (fileName content : Chars) : Except Chars DataFrame :=
  let lower := fileName.map Char.toLower
  if ".csv".data.isSuffixOf lower then env.readCsvFile content
  else if ".xlsx".data.isSuffixOf lower || ".xls".data.isSuffixOf lower then
    env.readExcelFile content
  else .error "Unsupported file format".data

/-- Embedding of `ProcessingService.process_data` (lines 23-148): validate
the user, create a `processing` job, ingest the file, cap the row count at
1000, run the AI stage, serialize the result, and commit the final job
status.  Ingestion failures mark the job `failed` and surface a prefixed
error; the AI stage never fails the job. -/
def processData (db : DBState) (content fileName prompt userId : Chars) (env : AIEnv) :
    DBState × PDResult :=
  if validUser db userId then
    let job0 : Job :=
      { user_id := userId, file_name := fileName, file_size := content.length,
        prompt := prompt, status := "processing".data, processing_summary := none,
        error_message := none, completed_at_set := false }
    let jobs1 := db.jobs ++ [job0]
    match readFile env fileName content with
    | .error e =>
        ({ db with jobs := updateLast (markFailed e) jobs1 },
         { success := false, data := none, processingSummary := none,
           error := some ("File processing error: ".data ++ e) })
    | .ok df =>
        if df.rows.length > 1000 then
          let e := "File too large. Maximum 1000 rows allowed for Trial V1.".data
          ({ db with jobs := updateLast (markFailed e) jobs1 },
           { success := false, data := none, processingSummary := none,
             error := some ("File processing error: ".data ++ e) })
        else
          let res := processWithAI df env
          let processedData := to_csv res.2.1
          let summary : List Chars :=
            ["Processed ".data ++ natToStr res.1.rows.length ++ " records with AI".data,
             "User request: ".data ++ prompt,
             "AI processing: ".data ++ res.2.2,
             "Ready for download".data]
          ({ db with jobs := updateLast (markCompleted summary) jobs1 },
           { success := true, data := some processedData,
             processingSummary := some summary, error := none })
  else
    (db, { success := false, data := none, processingSummary := none,
           error := some "Invalid user ID".data })

/-- `Settings.MAX_FILE_SIZE` (`config.py` line 58). -/
def MAX_FILE_SIZE : Nat := 10 * 1024 * 1024

/-- Extension extraction of the endpoint (`api/processing.py` line 25):
last dot-separated chunk of the lower-cased file name, empty when the name
has no dot. -/
def extOf (fileName : Chars) : Chars :=
  if dotC ∈ fileName then (splitOnChar dotC (fileName.map Char.toLower)).getLastD []
  else []

/-- Embedding of the `POST /process-data` handler (`api/processing.py`
lines 11-46): reject oversize uploads and bad extensions with HTTP 400 before
touching the service, then delegate and turn an unsuccessful service result
into HTTP 400 with the service's error text. -/
def processEndpoint (size : Nat) (fileName content prompt userId : Chars)
    (db : DBState) (env : AIEnv) : Except (Nat × Chars) PDResult × DBState :=
  if size > MAX_FILE_SIZE then
    (.error (400, "File too large. Maximum size is 10MB.".data), db)
  else if ¬ (extOf fileName = "xlsx".data ∨ extOf fileName = "xls".data ∨
             extOf fileName = "csv".data) then
    (.error (400, "Unsupported file type. Please upload Excel or CSV files.".data), db)
  else
    let r := processData db content fileName prompt userId env
    if r.2.success then
      (.ok { success := true, data := r.2.data, processingSummary := r.2.processingSummary,
             error := none }, r.1)
    else (.error (400, r.2.error.getD []), r.1)

/-- A one-column, one-row sample dataset. -/
def dfA : DataFrame := { columns := ["a".data], rows := [["1".data]] }

/-- A sample dataset that already owns a `done` column. -/
def dfDone : DataFrame := { columns := ["done".data], rows := [["x".data]] }

/-- A benign concrete environment: key configured, empty generation output,
`exec` leaves the working copy unchanged, CSV parsing yields `dfA`. -/
def envBase : AIEnv :=
  { apiKey := "k".data, genResult := .ok [], execPython := fun _ d => .ok d,
    aiStageFault := none, readCsvFile := fun _ => .ok dfA,
    readExcelFile := fun _ => .error "no excel".data }

/-- The benign environment without a configured OpenAI key. -/
def envNoKey : AIEnv := { envBase with apiKey := [] }

/-- No key configured and the uploaded file parses to `dfDone`. -/
def envNoKeyDone : AIEnv :=
  { envBase with apiKey := [], readCsvFile := fun _ => .ok dfDone }

/-- Generation succeeds with code whose execution raises a key error. -/
def envExecFail : AIEnv :=
  { envBase with
    genResult := .ok "df.x = df.b".data,
    execPython := fun c d =>
      if c = "df.x = df.b".data then .raised "KeyError: b".data d else .ok d }

/-- The OpenAI call raises; `exec` then runs the hard-coded fallback
statement, whose Python semantics is adding the `ai_error` column. -/
def envGenFail : AIEnv :=
  { envBase with
    genResult := .error "boom".data,
    execPython := fun c d =>
      if c = aiErrorFallbackCode then .ok (setCol d "ai_error".data "AI failed".data)
      else .ok d }

/-- An AI-stage exception outside the inner handlers (client construction). -/
def envFault : AIEnv := { envBase with aiStageFault := some "boom".data }

/-- A dataset exceeding the 1000-row ingestion cap. -/
def dfBig : DataFrame :=
  { columns := ["a".data], rows := List.replicate 1001 ["1".data] }

/-- The benign environment, with CSV parsing yielding the oversized dataset. -/
def envBig : AIEnv := { envBase with readCsvFile := fun _ => .ok dfBig }


theorem consHead_ne_nil (c : Char) (ls : List Chars) : consHead c ls ≠ [] := by
  cases ls <;> simp [consHead]

theorem splitQ_ne_nil (d : Char) : ∀ (cs : Chars) (b : Bool), splitQ d cs b ≠ []
  | [], _ => by simp [splitQ]
  | c :: cs, b => by
    simp only [splitQ]
    split
    · exact consHead_ne_nil _ _
    · split
      · simp
      · exact consHead_ne_nil _ _

theorem consHead_consAll (c : Char) (a : Chars) (ls : List Chars) :
    consHead c (consAll a ls) = consAll (c :: a) ls := by
  cases ls <;> simp [consHead, consAll]

theorem consAll_nil (ls : List Chars) (h : ls ≠ []) : consAll [] ls = ls := by
  cases ls with
  | nil => exact absurd rfl h
  | cons f fs => simp [consAll]

theorem splitQ_quote (d : Char) (cs : Chars) (b : Bool) :
    splitQ d (quoteC :: cs) b = consHead quoteC (splitQ d cs (!b)) := by
  simp [splitQ]

theorem splitQ_delim (d : Char) (cs : Chars) (hdq : d ≠ quoteC) :
    splitQ d (d :: cs) false = [] :: splitQ d cs false := by
  simp only [splitQ]
  rw [if_neg hdq, if_pos (by simp)]

theorem splitQ_other (d c : Char) (cs : Chars) (b : Bool)
    (hc : c ≠ quoteC) (hcd : ¬ (c = d ∧ b = false)) :
    splitQ d (c :: cs) b = consHead c (splitQ d cs b) := by
  simp only [splitQ]
  rw [if_neg hc, if_neg hcd]

theorem qstate_quote (cs : Chars) (b : Bool) :
    qstate (quoteC :: cs) b = qstate cs (!b) := by
  simp [qstate]

theorem qstate_other (c : Char) (cs : Chars) (b : Bool) (hc : c ≠ quoteC) :
    qstate (c :: cs) b = qstate cs b := by
  simp [qstate, hc]

theorem hasTopDelim_quote (d : Char) (cs : Chars) (b : Bool) :
    hasTopDelim d (quoteC :: cs) b = hasTopDelim d cs (!b) := by
  simp [hasTopDelim]

theorem hasTopDelim_other (d c : Char) (cs : Chars) (b : Bool)
    (hc : c ≠ quoteC) (hcd : ¬ (c = d ∧ b = false)) :
    hasTopDelim d (c :: cs) b = hasTopDelim d cs b := by
  simp only [hasTopDelim]
  rw [if_neg hc, if_neg hcd]

theorem qstate_append (a b : Chars) (s : Bool) :
    qstate (a ++ b) s = qstate b (qstate a s) := by
  induction a generalizing s with
  | nil => simp [qstate]
  | cons c a ih =>
    by_cases hc : c = quoteC
    · subst hc
      rw [List.cons_append, qstate_quote, qstate_quote, ih]
    · rw [List.cons_append, qstate_other _ _ _ hc, qstate_other _ _ _ hc, ih]

theorem hasTopDelim_append (d : Char) (a b : Chars) (s : Bool) :
    hasTopDelim d (a ++ b) s = (hasTopDelim d a s || hasTopDelim d b (qstate a s)) := by
  induction a generalizing s with
  | nil => simp [hasTopDelim, qstate]
  | cons c a ih =>
    by_cases hc : c = quoteC
    · subst hc
      rw [List.cons_append, hasTopDelim_quote, hasTopDelim_quote, qstate_quote, ih]
    · by_cases hd : c = d ∧ s = false
      · obtain ⟨hd1, hd2⟩ := hd
        subst hd1; subst hd2
        simp only [List.cons_append, hasTopDelim]
        rw [if_neg hc, if_pos (by simp), if_neg hc,
          if_pos (by simp)]
        simp
      · rw [List.cons_append, hasTopDelim_other _ _ _ _ hc hd,
          hasTopDelim_other _ _ _ _ hc hd, qstate_other _ _ _ hc, ih]

theorem splitQ_append (d : Char) (a : Chars) : ∀ (rest : Chars) (b : Bool),
    hasTopDelim d a b = false →
    splitQ d (a ++ rest) b = consAll a (splitQ d rest (qstate a b)) := by
  induction a with
  | nil =>
    intro rest b _
    simp only [List.nil_append, qstate]
    exact (consAll_nil _ (splitQ_ne_nil d rest b)).symm
  | cons c a ih =>
    intro rest b h
    by_cases hc : c = quoteC
    · subst hc
      rw [hasTopDelim_quote] at h
      rw [List.cons_append, splitQ_quote, qstate_quote, ih rest (!b) h, consHead_consAll]
    · by_cases hd : c = d ∧ b = false
      · exfalso
        obtain ⟨hd1, hd2⟩ := hd
        subst hd1; subst hd2
        simp only [hasTopDelim] at h
        rw [if_neg hc, if_pos (by simp)] at h
        simp at h
      · rw [hasTopDelim_other _ _ _ _ hc hd] at h
        rw [List.cons_append, splitQ_other _ _ _ _ hc hd, qstate_other _ _ _ hc,
          ih rest b h, consHead_consAll]

theorem splitQ_flatten (d : Char) (hdq : d ≠ quoteC) : ∀ (lines : List Chars),
    (∀ l ∈ lines, qstate l false = false ∧ hasTopDelim d l false = false) →
    splitQ d ((lines.map fun l => l ++ [d]).flatten) false = lines ++ [[]] := by
  intro lines
  induction lines with
  | nil => intro _; simp [splitQ]
  | cons l ls ih =>
    intro h
    have hl := h l (by simp)
    have hls : ∀ x ∈ ls, qstate x false = false ∧ hasTopDelim d x false = false :=
      fun x hx => h x (by simp [hx])
    simp only [List.map_cons, List.flatten_cons, List.append_assoc, List.singleton_append]
    rw [splitQ_append d l _ false hl.2, hl.1, splitQ_delim d _ hdq, ih hls]
    simp [consAll]

theorem no_special_of_not_needsQuote {f : Chars} (h : needsQuote f = false) :
    ∀ c ∈ f, c ≠ quoteC ∧ c ≠ commaC ∧ c ≠ nlC ∧ c ≠ crC := by
  intro c hc
  unfold needsQuote at h
  rw [List.any_eq_false] at h
  have := h c hc
  simp only [Bool.or_eq_true, beq_iff_eq, not_or] at this
  tauto

theorem qstate_no_quote (cs : Chars) (h : ∀ c ∈ cs, c ≠ quoteC) (b : Bool) :
    qstate cs b = b := by
  induction cs with
  | nil => simp [qstate]
  | cons c cs ih =>
    rw [qstate_other _ _ _ (h c (by simp))]
    exact ih (fun x hx => h x (by simp [hx])) 

theorem hasTopDelim_no_special (d : Char) (cs : Chars)
    (h : ∀ c ∈ cs, c ≠ quoteC ∧ c ≠ d) : ∀ (b : Bool), hasTopDelim d cs b = false := by
  induction cs with
  | nil => intro b; simp [hasTopDelim]
  | cons c cs ih =>
    intro b
    have hc := h c (by simp)
    rw [hasTopDelim_other _ _ _ _ hc.1 (fun hx => hc.2 hx.1)]
    exact ih (fun x hx => h x (by simp [hx])) b

theorem qstate_escapeQ (f : Chars) (b : Bool) : qstate (escapeQ f) b = b := by
  induction f generalizing b with
  | nil => simp [escapeQ, qstate]
  | cons c f ih =>
    by_cases hc : c = quoteC
    · subst hc
      simp only [escapeQ, eq_self_iff_true, if_true]
      rw [qstate_quote, qstate_quote, Bool.not_not, ih]
    · simp only [escapeQ, if_neg hc]
      rw [qstate_other _ _ _ hc, ih]

theorem hasTopDelim_escapeQ (d : Char) (f : Chars) :
    hasTopDelim d (escapeQ f) true = false := by
  induction f with
  | nil => simp [escapeQ, hasTopDelim]
  | cons c f ih =>
    by_cases hc : c = quoteC
    · subst hc
      simp only [escapeQ, eq_self_iff_true, if_true]
      rw [hasTopDelim_quote, hasTopDelim_quote, Bool.not_not]
      exact ih
    · simp only [escapeQ, if_neg hc]
      rw [hasTopDelim_other _ _ _ _ hc (fun hx => by simp at hx)]
      exact ih

theorem qstate_encodeField (f : Chars) : qstate (encodeField f) false = false := by
  unfold encodeField
  split
  · rw [qstate_quote, qstate_append, qstate_escapeQ, qstate_quote]
    simp [qstate]
  · next h =>
    have := no_special_of_not_needsQuote (Bool.of_not_eq_true h)
    exact qstate_no_quote f (fun c hc => (this c hc).1) false

theorem hasTopDelim_encodeField (d : Char) (hdq : d ≠ quoteC)
    (hsel : d = commaC ∨ d = nlC) (f : Chars) :
    hasTopDelim d (encodeField f) false = false := by
  unfold encodeField
  split
  · rw [hasTopDelim_quote, Bool.not_false, hasTopDelim_append, hasTopDelim_escapeQ,
      qstate_escapeQ, hasTopDelim_quote]
    simp [hasTopDelim]
  · next h =>
    have hs := no_special_of_not_needsQuote (Bool.of_not_eq_true h)
    refine hasTopDelim_no_special d f (fun c hc => ⟨(hs c hc).1, ?_⟩) false
    rcases hsel with h1 | h1
    · subst h1; exact (hs c hc).2.1
    · subst h1; exact (hs c hc).2.2.1

theorem encodeRecord_qstate (r : List Chars) : qstate (encodeRecord r) false = false := by
  induction r with
  | nil => simp [encodeRecord, intercalateChar, qstate]
  | cons f rs ih =>
    cases rs with
    | nil => simpa [encodeRecord, intercalateChar] using qstate_encodeField f
    | cons g fs =>
      have step : encodeRecord (f :: g :: fs)
          = encodeField f ++ commaC :: encodeRecord (g :: fs) := by
        simp [encodeRecord, intercalateChar]
      rw [step, qstate_append, qstate_encodeField,
        qstate_other _ _ _ (by decide : commaC ≠ quoteC), ih]

theorem encodeRecord_hasTop (r : List Chars) :
    hasTopDelim nlC (encodeRecord r) false = false := by
  induction r with
  | nil => simp [encodeRecord, intercalateChar, hasTopDelim]
  | cons f rs ih =>
    cases rs with
    | nil =>
      simpa [encodeRecord, intercalateChar] using
        hasTopDelim_encodeField nlC (by decide) (Or.inr rfl) f
    | cons g fs =>
      have step : encodeRecord (f :: g :: fs)
          = encodeField f ++ commaC :: encodeRecord (g :: fs) := by
        simp [encodeRecord, intercalateChar]
      rw [step, hasTopDelim_append, qstate_encodeField,
        hasTopDelim_encodeField nlC (by decide) (Or.inr rfl),
        hasTopDelim_other _ _ _ _ (by decide) (by decide), ih]
      simp

theorem escapeQ_eq_nil {f : Chars} (h : escapeQ f = []) : f = [] := by
  cases f with
  | nil => rfl
  | cons c cs =>
    exfalso
    unfold escapeQ at h
    split at h <;> simp at h

theorem unescapeQ_escapeQ (f : Chars) : unescapeQ (escapeQ f ++ [quoteC]) = f := by
  induction f with
  | nil => simp [escapeQ, unescapeQ]
  | cons c f ih =>
    by_cases hc : c = quoteC
    · subst hc
      simp only [escapeQ, eq_self_iff_true, if_true, List.cons_append]
      rw [show unescapeQ (quoteC :: quoteC :: (escapeQ f ++ [quoteC]))
          = quoteC :: unescapeQ (escapeQ f ++ [quoteC]) from by
        simp [unescapeQ], ih]
    · simp only [escapeQ, if_neg hc, List.cons_append]
      cases hE : escapeQ f ++ [quoteC] with
      | nil => simp at hE
      | cons e es =>
        rw [show unescapeQ (c :: e :: es) = c :: unescapeQ (e :: es) from by
          simp [unescapeQ, hc]]
        rw [← hE, ih]

theorem decodeField_encodeField (f : Chars) : decodeField (encodeField f) = f := by
  unfold encodeField
  split
  · simp only [decodeField, eq_self_iff_true, if_true]
    exact unescapeQ_escapeQ f
  · next h =>
    cases f with
    | nil => rfl
    | cons c cs =>
      have hc := (no_special_of_not_needsQuote (Bool.of_not_eq_true h) c (by simp)).1
      simp [decodeField, hc]

theorem splitQ_intercalate : ∀ (fields : List Chars),
    (∀ f ∈ fields, qstate f false = false ∧ hasTopDelim commaC f false = false) →
    fields ≠ [] →
    splitQ commaC (intercalateChar commaC fields) false = fields := by
  intro fields
  induction fields with
  | nil => intro _ h; exact absurd rfl h
  | cons f fs ih =>
    intro h _
    have hf := h f (by simp)
    cases fs with
    | nil =>
      have : intercalateChar commaC [f] = f ++ [] := by simp [intercalateChar]
      rw [this, splitQ_append _ _ _ _ hf.2, hf.1]
      simp [splitQ, consAll]
    | cons g gs =>
      have step : intercalateChar commaC (f :: g :: gs)
          = f ++ commaC :: intercalateChar commaC (g :: gs) := by
        simp [intercalateChar]
      rw [step, splitQ_append _ _ _ _ hf.2, hf.1,
        splitQ_delim _ _ (by decide),
        ih (fun x hx => h x (by simp [hx])) (by simp)]
      simp [consAll]

theorem parse_encodeRecord (r : List Chars) (hr : r ≠ []) :
    (splitQ commaC (encodeRecord r) false).map decodeField = r := by
  unfold encodeRecord
  rw [splitQ_intercalate (r.map encodeField) ?safe (by simpa using hr)]
  · rw [List.map_map]
    rw [List.map_congr_left (fun x _ => by
      simp only [Function.comp_apply]
      exact decodeField_encodeField x)]
    simp
  case safe =>
    intro f hf
    obtain ⟨x, _, rfl⟩ := List.mem_map.mp hf
    exact ⟨qstate_encodeField x,
      hasTopDelim_encodeField commaC (by decide) (Or.inl rfl) x⟩

theorem read_csv_to_csv (df : DataFrame) (hc : df.columns ≠ [])
    (hr : ∀ r ∈ df.rows, r ≠ []) : read_csv (to_csv df) = df := by
  have hflat : to_csv df
      = (((df.columns :: df.rows).map encodeRecord).map fun l => l ++ [nlC]).flatten := by
    simp [to_csv, serializeRecords, List.map_map, Function.comp_def]
  have hsafe : ∀ l ∈ (df.columns :: df.rows).map encodeRecord,
      qstate l false = false ∧ hasTopDelim nlC l false = false := by
    intro l hl
    obtain ⟨x, _, rfl⟩ := List.mem_map.mp hl
    exact ⟨encodeRecord_qstate x, encodeRecord_hasTop x⟩
  have hsplit := splitQ_flatten nlC (by decide) _ hsafe
  rw [← hflat] at hsplit
  have hrecs : csvRecords (to_csv df) = (df.columns :: df.rows).map encodeRecord := by
    unfold csvRecords
    rw [hsplit]
    rw [if_pos (by rw [List.getLast?_concat])]
    rw [List.dropLast_concat]
  unfold read_csv
  rw [hrecs]
  rw [List.map_map]
  have hmap : ((df.columns :: df.rows).map
      ((fun r => (splitQ commaC r false).map decodeField) ∘ encodeRecord))
      = df.columns :: df.rows := by
    have hcongr : ∀ x ∈ df.columns :: df.rows,
        ((fun r => (splitQ commaC r false).map decodeField) ∘ encodeRecord) x = id x := by
      intro x hx
      simp only [Function.comp_apply, id]
      apply parse_encodeRecord
      rcases List.mem_cons.mp hx with h1 | h1
      · rw [h1]; exact hc
      · exact hr x h1
    rw [List.map_congr_left hcongr]
    simp
  rw [hmap]

theorem isPrefixOf_append_self (a b : Chars) : a.isPrefixOf (a ++ b) = true := by
  rw [List.isPrefixOf_iff_prefix]
  exact List.prefix_append a b

theorem removeAllGo_stable (pat : Chars) : ∀ (f1 : Nat) (cs : Chars) (f2 : Nat),
    cs.length ≤ f1 → cs.length ≤ f2 → removeAllGo pat f1 cs = removeAllGo pat f2 cs := by
  intro f1
  induction f1 with
  | zero =>
    intro cs f2 h1 _
    have : cs = [] := List.eq_nil_of_length_eq_zero (Nat.le_zero.mp h1)
    subst this
    cases f2 <;> simp [removeAllGo]
  | succ f ih =>
    intro cs f2 h1 h2
    cases cs with
    | nil => cases f2 <;> simp [removeAllGo]
    | cons c cs' =>
      cases f2 with
      | zero => simp at h2
      | succ g =>
        simp only [removeAllGo]
        simp only [List.length_cons] at h1 h2
        by_cases hp : pat.isPrefixOf (c :: cs') = true
        · rw [if_pos hp, if_pos hp]
          refine ih _ g ?_ ?_ <;> (rw [List.length_drop]; omega)
        · rw [if_neg hp, if_neg hp, ih cs' g (by omega) (by omega)]

theorem removeAll_cons_match (pat : Chars) (c : Char) (cs : Chars)
    (hp : pat.isPrefixOf (c :: cs) = true) :
    removeAll pat (c :: cs) = removeAll pat (cs.drop (pat.length - 1)) := by
  unfold removeAll
  simp only [List.length_cons, removeAllGo]
  rw [if_pos hp]
  exact removeAllGo_stable pat cs.length _ _ (by rw [List.length_drop]; omega) (le_refl _)

theorem removeAll_cons_nomatch (pat : Chars) (c : Char) (cs : Chars)
    (hp : ¬ pat.isPrefixOf (c :: cs) = true) :
    removeAll pat (c :: cs) = c :: removeAll pat cs := by
  unfold removeAll
  simp only [List.length_cons, removeAllGo]
  rw [if_neg hp]

theorem removeAll_prefix (pat rest : Chars) (hps : pat ≠ []) :
    removeAll pat (pat ++ rest) = removeAll pat rest := by
  cases pat with
  | nil => exact absurd rfl hps
  | cons p pt =>
    rw [List.cons_append,
      removeAll_cons_match _ _ _ (by rw [← List.cons_append]; exact isPrefixOf_append_self _ _)]
    have : (p :: pt).length - 1 = pt.length := by simp
    rw [this, List.drop_left]

theorem removeAll_skip (p0 : Char) (pt chunk rest : Chars) (hno : p0 ∉ chunk) :
    removeAll (p0 :: pt) (chunk ++ rest) = chunk ++ removeAll (p0 :: pt) rest := by
  induction chunk with
  | nil => simp
  | cons c ch ih =>
    have hcp : p0 ≠ c := fun h => hno (by simp [h])
    have hp : ¬ (p0 :: pt).isPrefixOf (c :: (ch ++ rest)) = true := by
      simp [List.isPrefixOf, hcp]
    rw [List.cons_append, removeAll_cons_nomatch _ _ _ hp,
      ih (fun h => hno (by simp [h])), List.cons_append]

theorem removeAll_of_not_mem (p0 : Char) (pt cs : Chars) (hno : p0 ∉ cs) :
    removeAll (p0 :: pt) cs = cs := by
  have h := removeAll_skip p0 pt cs [] hno
  have hnil : removeAll (p0 :: pt) [] = [] := rfl
  rw [hnil] at h
  simp only [List.append_nil] at h
  exact h

theorem trimChars_of_ends (c d : Char) (mid : Chars)
    (hc : c.isWhitespace = false) (hd : d.isWhitespace = false) :
    trimChars (c :: (mid ++ [d])) = c :: (mid ++ [d]) := by
  unfold trimChars
  have h1 : (c :: (mid ++ [d])).dropWhile Char.isWhitespace = c :: (mid ++ [d]) := by
    rw [List.dropWhile_cons_of_neg]
    simp [hc]
  rw [h1]
  have h2 : (c :: (mid ++ [d])).reverse = d :: (mid.reverse ++ [c]) := by simp
  rw [h2]
  have h3 : (d :: (mid.reverse ++ [c])).dropWhile Char.isWhitespace
      = d :: (mid.reverse ++ [c]) := by
    rw [List.dropWhile_cons_of_neg]
    simp [hd]
  rw [h3]
  simp

theorem updateLast_append (f : Job → Job) (l : List Job) (j : Job) :
    updateLast f (l ++ [j]) = l ++ [f j] := by
  induction l with
  | nil => simp [updateLast]
  | cons a l ih =>
    cases l with
    | nil => simp [updateLast]
    | cons b l' =>
      simp only [List.cons_append]
      rw [show updateLast f (a :: b :: (l' ++ [j])) = a :: updateLast f (b :: (l' ++ [j]))
        from rfl]
      rw [show b :: (l' ++ [j]) = (b :: l') ++ [j] from rfl, ih]
      simp

theorem containsL_append_right (pre pat : Chars) : containsL pat (pre ++ pat) = true := by
  induction pre with
  | nil =>
    cases pat with
    | nil => simp [containsL, List.isEmpty]
    | cons c cs =>
      simp only [List.nil_append, containsL, Bool.or_eq_true]
      left
      have h := isPrefixOf_append_self (c :: cs) []
      rw [List.append_nil] at h
      exact h
  | cons c pre ih => simp [containsL, ih]

theorem processData_unauth (db : DBState) (content fileName prompt userId : Chars)
    (env : AIEnv) (hu : validUser db userId = false) :
    processData db content fileName prompt userId env =
      (db, { success := false, data := none, processingSummary := none,
             error := some "Invalid user ID".data }) := by
  simp [processData, hu]

theorem processData_ingest_error (db : DBState) (content fileName prompt userId : Chars)
    (env : AIEnv) (e : Chars) (hu : validUser db userId = true)
    (hread : readFile env fileName content = .error e) :
    processData db content fileName prompt userId env =
      ({ db with jobs := db.jobs ++
          [{ user_id := userId, file_name := fileName, file_size := content.length,
             prompt := prompt, status := "failed".data, processing_summary := none,
             error_message := some e, completed_at_set := false }] },
       { success := false, data := none, processingSummary := none,
         error := some ("File processing error: ".data ++ e) }) := by
  simp [processData, hu, hread, updateLast_append, markFailed]

theorem processData_rowcap (db : DBState) (content fileName prompt userId : Chars)
    (env : AIEnv) (df : DataFrame) (hu : validUser db userId = true)
    (hread : readFile env fileName content = .ok df)
    (hbig : df.rows.length > 1000) :
    processData db content fileName prompt userId env =
      ({ db with jobs := db.jobs ++
          [{ user_id := userId, file_name := fileName, file_size := content.length,
             prompt := prompt, status := "failed".data, processing_summary := none,
             error_message :=
               some "File too large. Maximum 1000 rows allowed for Trial V1.".data,
             completed_at_set := false }] },
       { success := false, data := none, processingSummary := none,
         error := some ("File processing error: ".data ++
           "File too large. Maximum 1000 rows allowed for Trial V1.".data) }) := by
  simp [processData, hu, hread, hbig, updateLast_append, markFailed]

theorem processData_ok (db : DBState) (content fileName prompt userId : Chars)
    (env : AIEnv) (df : DataFrame) (hu : validUser db userId = true)
    (hread : readFile env fileName content = .ok df)
    (hsmall : ¬ df.rows.length > 1000) :
    processData db content fileName prompt userId env =
      ({ db with jobs := db.jobs ++
          [{ user_id := userId, file_name := fileName, file_size := content.length,
             prompt := prompt, status := "completed".data,
             processing_summary := some
               ["Processed ".data ++ natToStr (processWithAI df env).1.rows.length
                  ++ " records with AI".data,
                "User request: ".data ++ prompt,
                "AI processing: ".data ++ (processWithAI df env).2.2,
                "Ready for download".data],
             error_message := none, completed_at_set := true }] },
       { success := true, data := some (to_csv (processWithAI df env).2.1),
         processingSummary := some
           ["Processed ".data ++ natToStr (processWithAI df env).1.rows.length
              ++ " records with AI".data,
            "User request: ".data ++ prompt,
            "AI processing: ".data ++ (processWithAI df env).2.2,
            "Ready for download".data],
         error := none }) := by
  simp [processData, hu, hread, hsmall, updateLast_append, markCompleted]

theorem setCol_rows_length (df : DataFrame) (name v : Chars) :
    (setCol df name v).rows.length = df.rows.length := by
  unfold setCol
  split <;> simp

theorem setCol_columns_new (df : DataFrame) (name v : Chars) (h : name ∉ df.columns) :
    (setCol df name v).columns = df.columns ++ [name] := by
  unfold setCol
  rw [if_neg h]

theorem setCol_columns_old (df : DataFrame) (name v : Chars) (h : name ∈ df.columns) :
    (setCol df name v).columns = df.columns := by
  unfold setCol
  rw [if_pos h]

theorem setCol_name_mem (df : DataFrame) (name v : Chars) :
    name ∈ (setCol df name v).columns := by
  unfold setCol
  split
  · next h => exact h
  · simp

theorem processWithAI_noKey (df : DataFrame) (env : AIEnv) (h : env.apiKey = []) :
    processWithAI df env =
      (setCol df "done".data "done".data, setCol df "done".data "done".data,
       noKeySummary) := by
  simp [processWithAI, h]

theorem processWithAI_fault (df : DataFrame) (env : AIEnv) (e : Chars)
    (hk : env.apiKey ≠ []) (hf : env.aiStageFault = some e) :
    processWithAI df env =
      (setCol df "done".data ("AI Error: ".data ++ e),
       setCol df "done".data ("AI Error: ".data ++ e),
       "AI processing failed: ".data ++ e) := by
  simp [processWithAI, hk, hf]

theorem processWithAI_normal (df : DataFrame) (env : AIEnv)
    (hk : env.apiKey ≠ []) (hf : env.aiStageFault = none) :
    processWithAI df env =
      (df, applyAiLogic df (getAiResponse env.genResult) env,
       (getAiResponse env.genResult).explanation) := by
  simp [processWithAI, hk, hf]

theorem applyAiLogic_empty (df : DataFrame) (resp : AIResponse) (env : AIEnv)
    (h : trimChars resp.code = []) :
    applyAiLogic df resp env = setCol df "ai_processed".data "No code generated".data := by
  simp [applyAiLogic, h]

theorem applyAiLogic_ok (df : DataFrame) (resp : AIResponse) (env : AIEnv) (d : DataFrame)
    (hne : trimChars resp.code ≠ []) (hex : env.execPython resp.code df = .ok d) :
    applyAiLogic df resp env = d := by
  simp [applyAiLogic, hne, hex]

theorem applyAiLogic_raised (df : DataFrame) (resp : AIResponse) (env : AIEnv)
    (e : Chars) (d : DataFrame)
    (hne : trimChars resp.code ≠ []) (hex : env.execPython resp.code df = .raised e d) :
    applyAiLogic df resp env
      = setCol d "execution_error".data ("Code error: ".data ++ e) := by
  simp [applyAiLogic, hne, hex]

/-- Claim C1: the claim asserts the sandbox builtin allow-list contains no
file-open, no eval/exec and no import primitive, and that only the dataset
and library handles are bound.  The embedded allow-list (transcribed from
`processing_service.py` lines 304-365) contains `open`, `eval`, `exec` and
`__import__`, and the bound names include `np`, `math` and `statistics`
besides `df` and `pd`: the code contradicts the claim. -/
theorem sandbox_allowlist_contains_escape_hatches :
    "open".data ∈ allowedBuiltins ∧ "eval".data ∈ allowedBuiltins ∧
    "exec".data ∈ allowedBuiltins ∧ "__import__".data ∈ allowedBuiltins ∧
    execGlobalNames ≠ ["df".data, "pd".data] ∧
    "np".data ∈ execGlobalNames ∧ "math".data ∈ execGlobalNames ∧
    "statistics".data ∈ execGlobalNames := by
  decide

/-- Claim C3: the sandbox executor has exactly two behaviours besides the
no-code placeholder — the `exec` outcome's dataframe on return, or an
`execution_error` column on a raised fault.  No timeout branch exists in the
code: a non-returning execution is never converted into a failure outcome. -/
theorem applyAiLogic_no_timeout_cases (df : DataFrame) (resp : AIResponse) (env : AIEnv) :
    (trimChars resp.code = [] ∧
      applyAiLogic df resp env = setCol df "ai_processed".data "No code generated".data) ∨
    (∃ d, env.execPython resp.code df = .ok d ∧ applyAiLogic df resp env = d) ∨
    (∃ e d, env.execPython resp.code df = .raised e d ∧
      applyAiLogic df resp env
        = setCol d "execution_error".data ("Code error: ".data ++ e)) := by
  by_cases h : trimChars resp.code = []
  · exact Or.inl ⟨h, applyAiLogic_empty df resp env h⟩
  · cases hex : env.execPython resp.code df with
    | ok d => exact Or.inr (Or.inl ⟨d, rfl, applyAiLogic_ok df resp env d h hex⟩)
    | raised e d =>
        exact Or.inr (Or.inr ⟨e, d, rfl, applyAiLogic_raised df resp env e d h hex⟩)

/-- Claim C5 counterexample: with no credential configured, the fallback
`df[done] = done` is executed on the caller's dataframe object itself, so
the original dataset passed into the AI stage is mutated — refuting the
claim that no path of the stage mutates it. -/
theorem fallback_mutates_original : (processWithAI dfA envNoKey).1 ≠ dfA := by decide

/-- Claim C5 amended: the sandbox executor itself works on a copy, so on the
normal path the caller's dataframe is returned unchanged; but the
no-credential fallback and the error-absorbing fallback of
`_process_with_ai` mutate the original in place by assigning a `done`
column. -/
theorem mutation_frame_conditions :
    (∀ (df : DataFrame) (env : AIEnv), env.apiKey ≠ [] → env.aiStageFault = none →
      (processWithAI df env).1 = df) ∧
    (∀ (df : DataFrame) (env : AIEnv), env.apiKey = [] →
      (processWithAI df env).1 = setCol df "done".data "done".data) ∧
    (∀ (df : DataFrame) (env : AIEnv) (e : Chars), env.apiKey ≠ [] →
      env.aiStageFault = some e →
      (processWithAI df env).1 = setCol df "done".data ("AI Error: ".data ++ e)) := by
  refine ⟨?_, ?_, ?_⟩
  · intro df env hk hf
    rw [processWithAI_normal df env hk hf]
  · intro df env hk
    rw [processWithAI_noKey df env hk]
  · intro df env e hk hf
    rw [processWithAI_fault df env e hk hf]

/-- Claim C5 witness: the three frame conditions evaluated at concrete
environments. -/
theorem mutation_frame_conditions_witness :
    (processWithAI dfA envBase).1 = dfA ∧
    (processWithAI dfA envNoKey).1 = setCol dfA "done".data "done".data ∧
    (processWithAI dfA envFault).1
      = setCol dfA "done".data ("AI Error: ".data ++ "boom".data) :=
  ⟨mutation_frame_conditions.1 dfA envBase (by decide) (by decide),
   mutation_frame_conditions.2.1 dfA envNoKey (by decide),
   mutation_frame_conditions.2.2 dfA envFault "boom".data (by decide) (by decide)⟩

/-- Claim C6: an unauthorized requester gets an immediate failure with the
database untouched (no job row); the reserved administrator identifier is
accepted for every database state — even one with no ledger entry at all —
and a job row is always created for it. -/
theorem authorization_gate :
    (∀ (db : DBState) (content fileName prompt userId : Chars) (env : AIEnv),
      validUser db userId = false →
      processData db content fileName prompt userId env =
        (db, { success := false, data := none, processingSummary := none,
               error := some "Invalid user ID".data })) ∧
    (∀ (db : DBState) (content fileName prompt : Chars) (env : AIEnv),
      ((processData db content fileName prompt ADMIN_USER_ID env).1).jobs.length
        = db.jobs.length + 1) := by
  constructor
  · intro db c f p u env hu
    exact processData_unauth db c f p u env hu
  · intro db c f p env
    have hu : validUser db ADMIN_USER_ID = true := by simp [validUser]
    cases hread : readFile env f c with
    | error e => rw [processData_ingest_error db c f p _ env e hu hread]; simp
    | ok df =>
      by_cases hb : df.rows.length > 1000
      · rw [processData_rowcap db c f p _ env df hu hread hb]; simp
      · rw [processData_ok db c f p _ env df hu hread hb]; simp

/-- Claim C6 witness: a concrete unknown user is rejected with no job row,
and the administrator gets a job row on an empty database. -/
theorem authorization_gate_witness :
    (processData ⟨[], []⟩ "b".data "a.csv".data "p".data "user_x".data envBase =
      (⟨[], []⟩, { success := false, data := none, processingSummary := none,
                   error := some "Invalid user ID".data })) ∧
    ((processData ⟨[], []⟩ "b".data "a.csv".data "p".data ADMIN_USER_ID envBase).1.jobs.length
      = (⟨[], []⟩ : DBState).jobs.length + 1) :=
  ⟨authorization_gate.1 ⟨[], []⟩ "b".data "a.csv".data "p".data "user_x".data envBase
      (by decide),
   authorization_gate.2 ⟨[], []⟩ "b".data "a.csv".data "p".data envBase⟩

/-- Claim C9: serializing the dataset produced by the sandbox stage to the
comma-separated wire format and re-parsing it recovers the same column list
(hence the same column set) and the same row count, for every dataset with a
nonempty header and nonempty rows. -/
theorem csv_roundtrip_columns_rows (df : DataFrame) (env : AIEnv)
    (hc : (processWithAI df env).2.1.columns ≠ [])
    (hr : ∀ r ∈ (processWithAI df env).2.1.rows, r ≠ []) :
    (read_csv (to_csv (processWithAI df env).2.1)).columns
      = (processWithAI df env).2.1.columns ∧
    (read_csv (to_csv (processWithAI df env).2.1)).rows.length
      = (processWithAI df env).2.1.rows.length := by
  rw [read_csv_to_csv _ hc hr]
  exact ⟨rfl, rfl⟩

/-- Claim C9 witness: the round trip evaluated on a concrete pipeline
dataset. -/
theorem csv_roundtrip_columns_rows_witness :
    (read_csv (to_csv (processWithAI dfA envBase).2.1)).columns
      = (processWithAI dfA envBase).2.1.columns ∧
    (read_csv (to_csv (processWithAI dfA envBase).2.1)).rows.length
      = (processWithAI dfA envBase).2.1.rows.length :=
  csv_roundtrip_columns_rows dfA envBase (by decide) (by decide)

/-- Claim C10: a reported size above 10 MiB, or an extension other than
xlsx/xls/csv, is rejected with HTTP 400 before the service runs: the
database state is returned untouched, so no job row is created and no file
content is processed. -/
theorem endpoint_rejects_preservice (size : Nat)
    (fileName content prompt userId : Chars) (db : DBState) (env : AIEnv)
    (h : size > MAX_FILE_SIZE ∨
      ¬ (extOf fileName = "xlsx".data ∨ extOf fileName = "xls".data ∨
         extOf fileName = "csv".data)) :
    ∃ msg, processEndpoint size fileName content prompt userId db env
      = (.error (400, msg), db) := by
  unfold processEndpoint
  rcases h with h | h
  · rw [if_pos h]
    exact ⟨_, rfl⟩
  · by_cases hs : size > MAX_FILE_SIZE
    · rw [if_pos hs]
      exact ⟨_, rfl⟩
    · rw [if_neg hs, if_pos h]
      exact ⟨_, rfl⟩

/-- Claim C10 witness: a small file with a pdf extension, and an oversized
file with a good extension, are both rejected with the database unchanged. -/
theorem endpoint_rejects_preservice_witness :
    (∃ msg, processEndpoint 5 "a.pdf".data "b".data "p".data ADMIN_USER_ID ⟨[], []⟩ envBase
      = (.error (400, msg), ⟨[], []⟩)) ∧
    (∃ msg, processEndpoint (10 * 1024 * 1024 + 1) "a.csv".data "b".data "p".data
        ADMIN_USER_ID ⟨[], []⟩ envBase = (.error (400, msg), ⟨[], []⟩)) :=
  ⟨endpoint_rejects_preservice 5 "a.pdf".data "b".data "p".data ADMIN_USER_ID ⟨[], []⟩
      envBase (Or.inr (by decide)),
   endpoint_rejects_preservice (10 * 1024 * 1024 + 1) "a.csv".data "b".data "p".data
      ADMIN_USER_ID ⟨[], []⟩ envBase (Or.inl (by norm_num [MAX_FILE_SIZE]))⟩

/-- Claim C4 counterexample: for a pdf upload the caller receives the
ingestion error with a `File processing error: ` prefix, which is not
character-for-character the raised text `Unsupported file format`. -/
theorem ingestion_error_not_verbatim :
    (processData ⟨[], []⟩ "b".data "a.pdf".data "p".data ADMIN_USER_ID envBase).2.error
      = some "File processing error: Unsupported file format".data ∧
    "File processing error: Unsupported file format".data
      ≠ "Unsupported file format".data := by
  decide

/-- Claim C4 amended: an unsupported extension or a row count above 1000 is
a hard failure — the job row ends `failed` with the raised message recorded
verbatim in its error message, the result has success false and no data, and
the error surfaced to the caller is the raised text prefixed with
`File processing error: ` (it contains the raised text verbatim but is not
identical to it). -/
theorem ingestion_hard_failure :
    (∀ (db : DBState) (content fileName prompt userId : Chars) (env : AIEnv),
      validUser db userId = true →
      ".csv".data.isSuffixOf (fileName.map Char.toLower) = false →
      ".xlsx".data.isSuffixOf (fileName.map Char.toLower) = false →
      ".xls".data.isSuffixOf (fileName.map Char.toLower) = false →
      processData db content fileName prompt userId env =
        ({ db with jobs := db.jobs ++
            [{ user_id := userId, file_name := fileName, file_size := content.length,
               prompt := prompt, status := "failed".data, processing_summary := none,
               error_message := some "Unsupported file format".data,
               completed_at_set := false }] },
         { success := false, data := none, processingSummary := none,
           error := some ("File processing error: ".data
             ++ "Unsupported file format".data) })) ∧
    (∀ (db : DBState) (content fileName prompt userId : Chars) (env : AIEnv)
        (df : DataFrame),
      validUser db userId = true →
      readFile env fileName content = .ok df →
      df.rows.length > 1000 →
      processData db content fileName prompt userId env =
        ({ db with jobs := db.jobs ++
            [{ user_id := userId, file_name := fileName, file_size := content.length,
               prompt := prompt, status := "failed".data, processing_summary := none,
               error_message :=
                 some "File too large. Maximum 1000 rows allowed for Trial V1.".data,
               completed_at_set := false }] },
         { success := false, data := none, processingSummary := none,
           error := some ("File processing error: ".data ++
             "File too large. Maximum 1000 rows allowed for Trial V1.".data) })) := by
  constructor
  · intro db c f p u env hu h1 h2 h3
    have hread : readFile env f c = .error "Unsupported file format".data := by
      simp [readFile, h1, h2, h3]
    exact processData_ingest_error db c f p u env _ hu hread
  · intro db c f p u env df hu hread hbig
    exact processData_rowcap db c f p u env df hu hread hbig

/-- Claim C4 witness: the two hard-failure paths evaluated at concrete
inputs (a pdf name, and a 1001-row parsed dataset). -/
theorem ingestion_hard_failure_witness :
    (processData ⟨[], []⟩ "b".data "a.pdf".data "p".data ADMIN_USER_ID envBase).2.success
      = false ∧
    ((processData ⟨[], []⟩ "b".data "a.pdf".data "p".data ADMIN_USER_ID
        envBase).1.jobs.map fun j => j.status) = ["failed".data] ∧
    (processData ⟨[], []⟩ "b".data "a.csv".data "p".data ADMIN_USER_ID envBig).2.error
      = some ("File processing error: ".data ++
          "File too large. Maximum 1000 rows allowed for Trial V1.".data) := by
  have h1 := ingestion_hard_failure.1 ⟨[], []⟩ "b".data "a.pdf".data "p".data
    ADMIN_USER_ID envBase (by decide) (by decide) (by decide) (by decide)
  have h2 := ingestion_hard_failure.2 ⟨[], []⟩ "b".data "a.csv".data "p".data
    ADMIN_USER_ID envBig dfBig (by decide) rfl
    (by
      have hlen : dfBig.rows.length = 1001 := List.length_replicate 1001 _
      omega)
  rw [h1, h2]
  exact ⟨rfl, rfl, rfl⟩

/-- Claim C7 counterexample: when the parsed dataset already owns a `done`
column, the no-credential fallback appends nothing — the column list is
unchanged and the existing cell values are overwritten by the marker — so
`exactly one marker column is appended` fails. -/
theorem no_key_overwrites_existing_done :
    (processData ⟨[], []⟩ "b".data "a.csv".data "p".data ADMIN_USER_ID envNoKeyDone).2.data
      = some (to_csv (setCol dfDone "done".data "done".data)) ∧
    (setCol dfDone "done".data "done".data).columns = dfDone.columns ∧
    (setCol dfDone "done".data "done".data).rows = [["done".data]] ∧
    dfDone.rows = [["x".data]] := by
  decide

/-- Claim C7 amended: with no credential configured the job always ends
`completed`, the marker column `done` is assigned (appended when absent,
overwritten in place when a `done` column already exists), and the result is
independent of the generation and execution oracles — no generation call is
ever issued. -/
theorem no_key_fallback (db : DBState) (content fileName prompt userId : Chars)
    (env : AIEnv) (df : DataFrame)
    (hu : validUser db userId = true)
    (hread : readFile env fileName content = .ok df)
    (hsmall : ¬ df.rows.length > 1000)
    (hkey : env.apiKey = []) :
    (processData db content fileName prompt userId env =
      ({ db with jobs := db.jobs ++
          [{ user_id := userId, file_name := fileName, file_size := content.length,
             prompt := prompt, status := "completed".data,
             processing_summary := some
               ["Processed ".data ++ natToStr df.rows.length ++ " records with AI".data,
                "User request: ".data ++ prompt,
                "AI processing: ".data ++ noKeySummary,
                "Ready for download".data],
             error_message := none, completed_at_set := true }] },
       { success := true, data := some (to_csv (setCol df "done".data "done".data)),
         processingSummary := some
           ["Processed ".data ++ natToStr df.rows.length ++ " records with AI".data,
            "User request: ".data ++ prompt,
            "AI processing: ".data ++ noKeySummary,
            "Ready for download".data],
         error := none })) ∧
    ("done".data ∉ df.columns →
      (setCol df "done".data "done".data).columns = df.columns ++ ["done".data]) ∧
    ("done".data ∈ df.columns →
      (setCol df "done".data "done".data).columns = df.columns) ∧
    (∀ (g : Except Chars Chars) (ex : Chars → DataFrame → ExecOutcome)
       (fa : Option Chars),
      processData db content fileName prompt userId
        { env with genResult := g, execPython := ex, aiStageFault := fa }
        = processData db content fileName prompt userId env) := by
  refine ⟨?_, ?_, ?_, ?_⟩
  · rw [processData_ok db content fileName prompt userId env df hu hread hsmall,
      processWithAI_noKey df env hkey, setCol_rows_length]
  · intro h
    exact setCol_columns_new df _ _ h
  · intro h
    exact setCol_columns_old df _ _ h
  · intro g ex fa
    have hread2 : readFile { env with genResult := g, execPython := ex, aiStageFault := fa }
        fileName content = .ok df := hread
    have hkey2 : ({ env with genResult := g, execPython := ex, aiStageFault := fa }
        : AIEnv).apiKey = [] := hkey
    rw [processData_ok db content fileName prompt userId _ df hu hread2 hsmall,
      processData_ok db content fileName prompt userId env df hu hread hsmall,
      processWithAI_noKey _ _ hkey2, processWithAI_noKey df env hkey]

/-- Claim C7 witness: the no-credential fallback evaluated at a concrete
dataset without a `done` column, including oracle independence. -/
theorem no_key_fallback_witness :
    (processData ⟨[], []⟩ "b".data "a.csv".data "p".data ADMIN_USER_ID envNoKey).2.data
      = some (to_csv (setCol dfA "done".data "done".data)) ∧
    (setCol dfA "done".data "done".data).columns = dfA.columns ++ ["done".data] ∧
    processData ⟨[], []⟩ "b".data "a.csv".data "p".data ADMIN_USER_ID
        { envNoKey with
          genResult := .error "x".data, execPython := fun _ d => .ok d,
          aiStageFault := some "y".data }
      = processData ⟨[], []⟩ "b".data "a.csv".data "p".data ADMIN_USER_ID envNoKey := by
  have h := no_key_fallback ⟨[], []⟩ "b".data "a.csv".data "p".data ADMIN_USER_ID
    envNoKey dfA (by decide) rfl (by decide) rfl
  refine ⟨?_, h.2.1 (by decide), h.2.2.2 (.error "x".data) (fun _ d => .ok d)
    (some "y".data)⟩
  rw [h.1]

/-- Claim C8 counterexample: on a fenced text whose code body itself contains
a fence marker, the code deletes every occurrence (`str.replace` removes all),
while the claimed rule — remove only the opening and closing fence markers —
keeps the inner one: the two disagree. -/
theorem sanitizer_strips_inner_fences :
    cleanCode "```python\nx = 1 ```\n```".data = "x = 1".data ∧
    sanitizeFencePerSpec "```python\nx = 1 ```\n```".data = "x = 1 ```".data ∧
    cleanCode "```python\nx = 1 ```\n```".data
      ≠ sanitizeFencePerSpec "```python\nx = 1 ```\n```".data := by
  decide

/-- Claim C8 amended: text not starting with a fence marker (after trimming)
passes through trimmed; a python-fenced text is cleaned by deleting every
occurrence of the marker texts, which agrees with the spec's
remove-opening-and-closing rule whenever the body contains no backtick; and
an empty cleaned code is handled as `no code produced` — the placeholder
column is added instead of raising. -/
theorem sanitizer_behaviour :
    (∀ raw : Chars, fence.isPrefixOf (trimChars raw) = false →
      cleanCode raw = trimChars raw) ∧
    (∀ body : Chars, btickC ∉ body →
      cleanCode (fencePy ++ body ++ fence) = trimChars body ∧
      sanitizeFencePerSpec (fencePy ++ body ++ fence) = trimChars body) ∧
    (∀ (df : DataFrame) (resp : AIResponse) (env : AIEnv), trimChars resp.code = [] →
      applyAiLogic df resp env
        = setCol df "ai_processed".data "No code generated".data) := by
  refine ⟨?_, ?_, ?_⟩
  · intro raw h
    have h2 : fencePy.isPrefixOf (trimChars raw) = false := by
      cases hpy : fencePy.isPrefixOf (trimChars raw) with
      | false => rfl
      | true =>
        exfalso
        rw [List.isPrefixOf_iff_prefix] at hpy
        have hfp : fence <+: fencePy := ⟨"python".data, by decide⟩
        have hft := List.isPrefixOf_iff_prefix.mpr (hfp.trans hpy)
        rw [h] at hft
        exact Bool.false_ne_true hft
    simp [cleanCode, h, h2]
  · intro body hno
    have e1 : fencePy = btickC :: "``python".data := by decide
    have e2 : fence = "``".data ++ [btickC] := by decide
    have e3 : fence = btickC :: "``".data := by decide
    have hshape : fencePy ++ body ++ fence
        = btickC :: (("``python".data ++ body ++ "``".data) ++ [btickC]) := by
      rw [e1]
      conv_lhs => rw [e2]
      simp [List.append_assoc]
    have htrim : trimChars (fencePy ++ body ++ fence) = fencePy ++ body ++ fence := by
      rw [hshape]
      exact trimChars_of_ends btickC btickC _ (by decide) (by decide)
    have hpre : fencePy.isPrefixOf (fencePy ++ body ++ fence) = true := by
      rw [List.append_assoc]
      exact isPrefixOf_append_self _ _
    constructor
    · have h1 : removeAll fencePy (fencePy ++ body ++ fence) = body ++ fence := by
        rw [List.append_assoc, removeAll_prefix _ _ (by decide)]
        rw [e1, removeAll_skip btickC _ body fence hno, ← e1]
        have hff : removeAll fencePy fence = fence := by decide
        rw [hff]
      have h2 : removeAll fence (body ++ fence) = body := by
        rw [e3, removeAll_skip btickC _ body _ hno, ← e3]
        have hzero : removeAll fence fence = [] := by decide
        rw [hzero, List.append_nil]
      simp only [cleanCode, htrim, hpre, if_true]
      rw [h1, h2]
    · have hdrop : (fencePy ++ body ++ fence).drop fencePy.length = body ++ fence := by
        rw [List.append_assoc]
        exact List.drop_left _ _
      have hsuf : fence.isSuffixOf (body ++ fence) = true := by
        rw [List.isSuffixOf_iff_suffix]
        exact List.suffix_append body fence
      have htake : (body ++ fence).take ((body ++ fence).length - fence.length)
          = body := by
        have hl : (body ++ fence).length - fence.length = body.length := by
          simp [List.length_append]
        rw [hl]
        exact List.take_left body fence
      simp only [sanitizeFencePerSpec, htrim, hpre, if_true, hdrop, hsuf, htake]
  · intro df resp env h
    exact applyAiLogic_empty df resp env h

/-- Claim C8 witness: the three sanitizer guarantees evaluated at concrete
texts. -/
theorem sanitizer_behaviour_witness :
    cleanCode "x = 5".data = trimChars "x = 5".data ∧
    (cleanCode (fencePy ++ "\nx = 1\n".data ++ fence) = trimChars "\nx = 1\n".data ∧
     sanitizeFencePerSpec (fencePy ++ "\nx = 1\n".data ++ fence)
       = trimChars "\nx = 1\n".data) ∧
    applyAiLogic dfA { code := [], explanation := [] } envBase
      = setCol dfA "ai_processed".data "No code generated".data :=
  ⟨sanitizer_behaviour.1 "x = 5".data (by decide),
   sanitizer_behaviour.2.1 "\nx = 1\n".data (by decide),
   sanitizer_behaviour.2.2 dfA { code := [], explanation := [] } envBase (by decide)⟩

/-- Claim C2 counterexample: when generation succeeds but the sandbox
execution raises, the job completes and the `execution_error` column carries
the fault text, but the returned processing summary reports only the generic
`AI generated pandas code` explanation — the failure text appears in no
summary entry, refuting the claim that it always reaches the summary. -/
theorem exec_failure_text_not_in_summary :
    (processData ⟨[], []⟩ "b".data "a.csv".data "p".data ADMIN_USER_ID
        envExecFail).2.processingSummary
      = some ["Processed 1 records with AI".data, "User request: p".data,
              "AI processing: AI generated pandas code".data,
              "Ready for download".data] ∧
    (∀ s ∈ ["Processed 1 records with AI".data, "User request: p".data,
            "AI processing: AI generated pandas code".data,
            "Ready for download".data], containsL "KeyError: b".data s = false) ∧
    (processData ⟨[], []⟩ "b".data "a.csv".data "p".data ADMIN_USER_ID
        envExecFail).2.data
      = some (to_csv (setCol dfA "execution_error".data
          "Code error: KeyError: b".data)) ∧
    ((processData ⟨[], []⟩ "b".data "a.csv".data "p".data ADMIN_USER_ID
        envExecFail).1.jobs.map fun j => j.status) = ["completed".data] := by
  decide

/-- Claim C2 amended: generation-client and sandbox failures never fail the
job — it ends `completed` with an error-describing column on the returned
dataset.  The failure text reaches the processing summary when the
generation call itself fails; when the sandbox execution raises, the summary
carries only the generic explanation and the failure text is recorded in the
`execution_error` column instead. -/
theorem ai_failures_absorbed :
    (∀ (db : DBState) (content fileName prompt userId : Chars) (env : AIEnv)
        (df : DataFrame) (e : Chars),
      validUser db userId = true →
      readFile env fileName content = .ok df →
      ¬ df.rows.length > 1000 →
      env.apiKey ≠ [] →
      env.aiStageFault = none →
      env.genResult = .error e →
      env.execPython aiErrorFallbackCode df
        = .ok (setCol df "ai_error".data "AI failed".data) →
      (processData db content fileName prompt userId env =
        ({ db with jobs := db.jobs ++
            [{ user_id := userId, file_name := fileName, file_size := content.length,
               prompt := prompt, status := "completed".data,
               processing_summary := some
                 ["Processed ".data ++ natToStr df.rows.length
                    ++ " records with AI".data,
                  "User request: ".data ++ prompt,
                  "AI processing: ".data ++ ("AI processing error: ".data ++ e),
                  "Ready for download".data],
               error_message := none, completed_at_set := true }] },
         { success := true,
           data := some (to_csv (setCol df "ai_error".data "AI failed".data)),
           processingSummary := some
             ["Processed ".data ++ natToStr df.rows.length ++ " records with AI".data,
              "User request: ".data ++ prompt,
              "AI processing: ".data ++ ("AI processing error: ".data ++ e),
              "Ready for download".data],
           error := none }) ∧
       containsL e ("AI processing: ".data ++ ("AI processing error: ".data ++ e))
         = true)) ∧
    (∀ (db : DBState) (content fileName prompt userId : Chars) (env : AIEnv)
        (df : DataFrame) (raw e : Chars) (d : DataFrame),
      validUser db userId = true →
      readFile env fileName content = .ok df →
      ¬ df.rows.length > 1000 →
      env.apiKey ≠ [] →
      env.aiStageFault = none →
      env.genResult = .ok raw →
      trimChars (cleanCode raw) ≠ [] →
      env.execPython (cleanCode raw) df = .raised e d →
      (processData db content fileName prompt userId env =
        ({ db with jobs := db.jobs ++
            [{ user_id := userId, file_name := fileName, file_size := content.length,
               prompt := prompt, status := "completed".data,
               processing_summary := some
                 ["Processed ".data ++ natToStr df.rows.length
                    ++ " records with AI".data,
                  "User request: ".data ++ prompt,
                  "AI processing: ".data ++ "AI generated pandas code".data,
                  "Ready for download".data],
               error_message := none, completed_at_set := true }] },
         { success := true,
           data := some (to_csv (setCol d "execution_error".data
             ("Code error: ".data ++ e))),
           processingSummary := some
             ["Processed ".data ++ natToStr df.rows.length ++ " records with AI".data,
              "User request: ".data ++ prompt,
              "AI processing: ".data ++ "AI generated pandas code".data,
              "Ready for download".data],
           error := none }) ∧
       "execution_error".data
         ∈ (setCol d "execution_error".data ("Code error: ".data ++ e)).columns)) := by
  constructor
  · intro db c f p u env df e hu hread hsmall hkey hfault hgen hex
    constructor
    · have hne0 : trimChars aiErrorFallbackCode ≠ [] := by decide
      rw [processData_ok db c f p u env df hu hread hsmall,
        processWithAI_normal df env hkey hfault, hgen,
        applyAiLogic_ok df (getAiResponse (Except.error e)) env
          (setCol df "ai_error".data "AI failed".data) hne0 hex]
      rfl
    · rw [← List.append_assoc]
      exact containsL_append_right _ e
  · intro db c f p u env df raw e d hu hread hsmall hkey hfault hgen hne hex
    constructor
    · rw [processData_ok db c f p u env df hu hread hsmall,
        processWithAI_normal df env hkey hfault, hgen,
        applyAiLogic_raised df (getAiResponse (Except.ok raw)) env e d hne hex]
      rfl
    · exact setCol_name_mem d _ _

/-- Claim C2 witness: both absorbed-failure paths evaluated at concrete
environments (a raising generation call, and raising generated code). -/
theorem ai_failures_absorbed_witness :
    ((processData ⟨[], []⟩ "b".data "a.csv".data "p".data ADMIN_USER_ID
        envGenFail).2.success = true ∧
     containsL "boom".data
       ("AI processing: ".data ++ ("AI processing error: ".data ++ "boom".data))
       = true) ∧
    ((processData ⟨[], []⟩ "b".data "a.csv".data "p".data ADMIN_USER_ID
        envExecFail).2.success = true ∧
     "execution_error".data ∈ (setCol dfA "execution_error".data
        ("Code error: ".data ++ "KeyError: b".data)).columns) := by
  have ha := ai_failures_absorbed.1 ⟨[], []⟩ "b".data "a.csv".data "p".data
    ADMIN_USER_ID envGenFail dfA "boom".data (by decide) rfl (by decide) (by decide)
    rfl rfl rfl
  have hb := ai_failures_absorbed.2 ⟨[], []⟩ "b".data "a.csv".data "p".data
    ADMIN_USER_ID envExecFail dfA "df.x = df.b".data "KeyError: b".data dfA
    (by decide) rfl (by decide) (by decide) rfl rfl (by decide) rfl
  exact ⟨⟨by rw [ha.1], ha.2⟩, ⟨by rw [hb.1], hb.2⟩⟩
